import Mathlib

/-!
Shallow embedding of the analytics/report pipeline of `src/main.py`
(endpoint `analyser_json`) together with theorems checking the
natural-language specification against it.

Modelling conventions:
* Machine integers are `Int`/`Nat` (Python integers are unbounded anyway).
* The pandas dataframe is the list of input records; renamed columns
  (`authorName`, `sentimentHumanReadable`) are the record fields
  `author` and `sentiment_label`.
* External rendering libraries (matplotlib, wordcloud, pandas `to_html`)
  only turn already-computed aggregates into strings; they are modelled
  by an abstract `Renderer` whose fields are arbitrary functions.
* Fallible code is `Except`.
-/

namespace Veille

/-- Input record, after the pydantic model `Article` of src/main.py:
author, content excerpt, published_at (epoch seconds), sentiment label,
title, source link, keywords (defaulting to the empty list). -/
structure Article where
  author : String
  content_excerpt : String
  published_at : Int
  sentiment_label : String
  title : String
  source_link : String
  keywords : List String := []
deriving DecidableEq

/-- Run-aborting errors of the pipeline: the KeyError raised by a column
access on the empty dataframe, and the error raised by
`datetime.utcfromtimestamp` on an out-of-range epoch value. -/
inductive Err where
  | keyError : Err
  | invalidTimestamp : Err
deriving DecidableEq

/-- The `kpis` dictionary of src/main.py lines 57-62. -/
structure Kpis where
  total_mentions : Nat
  positive : Nat
  negative : Nat
  neutral : Nat
deriving DecidableEq

/-- Abstract model of the external rendering libraries: matplotlib figure
encoding (`fig_to_base64`), wordcloud generation and pandas `to_html`.
Each is an arbitrary function from the aggregate handed to it by the
pipeline to the produced string. -/
structure Renderer where
  renderTimeSeries : List (Int × Nat) → String
  renderWordcloud : String → String
  renderAuthorChart : List (String × List (String × Nat)) → String
  renderTable : List (String × Nat) → String

/-- Result of a successful run: the returned dictionary
`{"kpis": ..., "html_report": ...}` plus the content persisted to
`static/rapport_veille.html` (lines 179-186 of src/main.py). -/
structure RunResult where
  kpis : Kpis
  html_report : String
  saved : String
deriving DecidableEq

/-! ## Timestamp conversion (line 51) -/

/-- `datetime.utcfromtimestamp` succeeds exactly on epoch values whose UTC
instant lies between 0001-01-01T00:00:00 and 9999-12-31T23:59:59. -/
def validTimestamp (ts : Int) : Prop :=
  -62135596800 ≤ ts ∧ ts ≤ 253402300799

instance (ts : Int) : Decidable (validTimestamp ts) := by
  unfold validTimestamp; infer_instance

/-- UTC calendar date of an epoch timestamp, as a number of days since
1970-01-01 (the `.dt.date` of the converted timestamp, line 65). -/
def utcDayOf (ts : Int) : Int :=
  ts.fdiv 86400

/-- Model of `datetime.utcfromtimestamp` applied at line 51: returns the
(validated) timestamp or raises for out-of-range epoch values. -/
def utcfromtimestamp (ts : Int) : Except Err Int :=
  if validTimestamp ts then .ok ts else .error .invalidTimestamp

/-- Row-wise application of a fallible conversion, as pandas `.apply` of a
raising function: the first failing row aborts the whole computation. -/
def mapExcept (f : α → Except Err β) : List α → Except Err (List β)
  | [] => .ok []
  | x :: xs => do
    let y ← f x
    let ys ← mapExcept f xs
    .ok (y :: ys)

/-! ## Generic list helpers

`dedupFirst` keeps the first occurrence of every element, preserving
first-appearance order: it is the key order of a Python `Counter` /
`dict` built by insertion, and of a pandas `groupby` key list before
sorting. `firstIdx` is the index of the first occurrence. -/

def dedupFirst [DecidableEq α] : List α → List α
  | [] => []
  | x :: xs => x :: (dedupFirst xs).filter (fun y => decide (y ≠ x))

def firstIdx [DecidableEq α] (a : α) : List α → Nat
  | [] => 0
  | x :: xs => if x = a then 0 else firstIdx a xs + 1

/-! ## KPI calculator (lines 57-62) -/

/-- `kpis` of src/main.py: total = dataframe length, and the three bucket
counts are exact string-equality counts over the sentiment column. -/
def kpisOf (l : List Article) : Kpis where
  total_mentions := l.length
  positive := l.countP (fun a => a.sentiment_label == "positive")
  negative := l.countP (fun a => a.sentiment_label == "negative")
  neutral := l.countP (fun a => a.sentiment_label == "neutral")

/-! ## Time-series aggregator (lines 65-66) -/

/-- `value_counts().sort_index()` over the `Period` column: one entry per
distinct day, sorted ascending, each with its number of occurrences. -/
def dailySeriesOf (ds : List Int) : List (Int × Nat) :=
  (List.insertionSort (· ≤ ·) (dedupFirst ds)).map (fun d => (d, ds.count d))

/-! ## Keyword analyzer (lines 76-100)

The `isinstance(sublist, list)` guard of line 76 is always true here,
because the pydantic model already forces `keywords` to be a list of
strings (defaulting to `[]`). -/

/-- Model of `str.lower`: lowercase every character. -/
def pyLower (s : String) : String :=
  ⟨s.data.map Char.toLower⟩

/-- `all_keywords`: the flattened keyword lists, each keyword lowercased,
in record order (line 76). -/
def all_keywords (l : List Article) : List String :=
  ((l.map (fun a => a.keywords)).flatten).map pyLower

/-- `Counter(all_keywords)`: one entry per distinct keyword, keys in
first-appearance order, values the occurrence counts (line 91). -/
def keywordFreq (l : List Article) : List (String × Nat) :=
  (dedupFirst (all_keywords l)).map (fun k => (k, (all_keywords l).count k))

/-- Comparison used by `Counter.most_common`: sort by count, descending. -/
def cntGe (p q : String × Nat) : Prop := q.2 ≤ p.2

instance : DecidableRel cntGe := fun p q => by
  unfold cntGe; infer_instance

/-- `counter.most_common(6)`: the six counter entries of largest count,
by a stable descending sort on the insertion-ordered entries (line 92). -/
def most_common6 (l : List Article) : List (String × Nat) :=
  (List.insertionSort cntGe (keywordFreq l)).take 6

/-- `top_keywords` of line 92. -/
def top_keywords (l : List Article) : List String :=
  (most_common6 l).map (fun p => p.1)

/-- The f-string of lines 94-98 applied to a non-empty keyword list:
all keywords but the last joined by a comma, then "et" and the last. -/
def summarySentence (ks : List String) : String :=
  "Les mots-clés les plus récurrents dans la couverture médiatique sont " ++
    String.intercalate ", " ks.dropLast ++ " et " ++ ks.getLastD "" ++
    ". Cela reflète les thématiques principales abordées dans les articles analysés."

/-- `summary_text`: empty unless some keyword exists (lines 77-98). -/
def summaryTextOf (l : List Article) : String :=
  if (all_keywords l).isEmpty then ""
  else if (top_keywords l).isEmpty then ""
  else summarySentence (top_keywords l)

/-- `keywords_freq_b64`: the wordcloud image built from the space-joined
keyword text, or the empty string when there is no keyword at all
(lines 78-100). -/
def keywords_freq_b64 (R : Renderer) (l : List Article) : String :=
  if (all_keywords l).isEmpty then ""
  else R.renderWordcloud (String.intercalate " " (all_keywords l))

/-! ## Author ranker (lines 103-124) -/

/-- Lexicographic comparison of character lists by code point. -/
def charListLe : List Char → List Char → Bool
  | [], _ => true
  | _ :: _, [] => false
  | a :: as, b :: bs =>
    if a < b then true else if b < a then false else charListLe as bs

/-- Lexicographic order on strings: the order of Python string
comparison, used by pandas to sort group keys. -/
def strLe (s t : String) : Prop := charListLe s.data t.data = true

instance : DecidableRel strLe := fun s t => by
  unfold strLe; infer_instance

/-- Distinct sentiment labels of the batch, sorted: the column index
produced by `unstack` at line 103. -/
def sentLabelsOf (l : List Article) : List String :=
  List.insertionSort strLe (dedupFirst (l.map (fun a => a.sentiment_label)))

/-- One row of the `author_sentiment` table: for each sentiment column,
the number of records of this author carrying that label. -/
def authorRow (l : List Article) (a : String) : List (String × Nat) :=
  (sentLabelsOf l).map
    (fun s => (s, l.countP (fun x => x.author == a && x.sentiment_label == s)))

/-- Distinct author names, sorted: the row index of the `groupby` at
line 103. -/
def authorsSortedOf (l : List Article) : List String :=
  List.insertionSort strLe (dedupFirst (l.map (fun a => a.author)))

/-- `author_sentiment` after line 104: author, per-sentiment counts, and
the `Total` column obtained by summing the row. -/
def author_sentiment (l : List Article) : List (String × List (String × Nat) × Nat) :=
  (authorsSortedOf l).map
    (fun a => (a, authorRow l a, ((authorRow l a).map (fun p => p.2)).sum))

/-- Comparison used by `sort_values(by=Total, ascending=False)`. -/
def totGe (p q : String × List (String × Nat) × Nat) : Prop := q.2.2 ≤ p.2.2

instance : DecidableRel totGe := fun p q => by
  unfold totGe; infer_instance

/-- `top_authors_sentiment` (lines 105-106): sort by total descending,
keep the first 10 rows, drop the `Total` column, reverse the rows. -/
def top_authors_sentiment (l : List Article) : List (String × List (String × Nat)) :=
  ((((List.insertionSort totGe (author_sentiment l)).take 10).map
    (fun p => (p.1, p.2.1))).reverse)

/-- `df[authorName].value_counts()` material of lines 117-119: distinct
authors with their raw mention counts, in first-appearance order. -/
def authorCounts (l : List Article) : List (String × Nat) :=
  (dedupFirst (l.map (fun a => a.author))).map
    (fun a => (a, (l.map (fun x => x.author)).count a))

/-- `value_counts()` sorts by count, descending. -/
def value_counts_authors (l : List Article) : List (String × Nat) :=
  List.insertionSort cntGe (authorCounts l)

/-- Rows of the top-authors table: `head(5)` of the sorted counts
(line 122). -/
def top_table_rows (l : List Article) : List (String × Nat) :=
  (value_counts_authors l).take 5

/-! ## Report composer (lines 127-178)

The f-string is a concatenation of literal pieces and interpolated
values; it is split here right around the keyword section so that the
position of that section in the document is explicit. Literal brace
characters of the CSS (written `\x7b\x7b`/`\x7d\x7d` in the f-string)
and the ASCII apostrophes are written with `\x27`/`\x7b`/`\x7d`
escapes. -/

/-- Document from the DOCTYPE up to and including the time-series
(evolution) section, with the four KPI tiles interpolated. -/
def htmlPre (k : Kpis) (evolution_b64 : String) : String :=
  "<!DOCTYPE html>
<html lang=\x27fr\x27>
<head>
    <meta charset=\x27UTF-8\x27>
    <title>📊 Rapport d\x27Analyse Automatisée de Veille Médiatique</title>
    <style>
        body \x7b font-family: Arial, sans-serif; padding: 40px; max-width: 900px; margin: auto; background-color: white; \x7d
        h1, h2 \x7b text-align: center; color: #023047; \x7d
        .centered-text \x7b max-width: 800px; margin: 0 auto 40px; text-align: center; font-size: 16px; line-height: 1.6; \x7d
        .styled-table \x7b border-collapse: collapse; margin: 25px auto; font-size: 16px; width: 80%; border: 1px solid #dddddd; \x7d
        .styled-table th, .styled-table td \x7b padding: 10px 15px; text-align: left; border: 1px solid #dddddd; \x7d
        .styled-table thead th \x7b background-color: white; font-weight: bold; \x7d
        .image-block \x7b text-align: center; margin: 30px 0; \x7d
    </style>
</head>
<body>
    <h1>📊 Rapport d\x27Analyse Automatisée de Veille Médiatique</h1>
    <div class=\"centered-text\">
        <p>
            Ce rapport fournit une analyse approfondie des articles collectés depuis la plateforme Lumenfeed.
            Il vise à offrir une vision claire et synthétique de la couverture médiatique d’un sujet donné,
            en mettant en évidence les volumes de publication, les auteurs les plus actifs, et les principaux mots-clés abordés.
        </p>
    </div>
    <h2>Indicateurs Clés</h2>
    <div style=\"display: flex; justify-content: space-around; margin: 20px 0;\">
        <div style=\"text-align: center;\"><h3>" ++ toString k.total_mentions ++ "</h3><p>Mentions totales</p></div>
        <div style=\"text-align: center;\"><h3>" ++ toString k.positive ++ "</h3><p>Positives</p></div>
        <div style=\"text-align: center;\"><h3>" ++ toString k.negative ++ "</h3><p>Négatives</p></div>
        <div style=\"text-align: center;\"><h3>" ++ toString k.neutral ++ "</h3><p>Neutres</p></div>
    </div>
    <div class=\"image-block\">
        <h2>Évolution des mentions</h2>
        <img src=\"data:image/png;base64," ++ evolution_b64 ++ "\" width=\"700\"/>
    </div>
"

/-- The keyword section of the document (lines 162-165): it is emitted
unconditionally, with whatever string `keywords_freq_b64` holds. -/
def kwSection (keywords_b64 : String) : String :=
  "    <div class=\"image-block\">
        <h2>Mots-clés les plus fréquents</h2>
        <img src=\"data:image/png;base64," ++ keywords_b64 ++ "\" width=\"600\"/>
    </div>
"

/-- Rest of the document: summary paragraph, author-sentiment chart,
top-authors table, closing tags (lines 166-178). -/
def htmlPost (summary_text sentiments_b64 top_table : String) : String :=
  "    <h2>Résumé automatique</h2>
    <div class=\"centered-text\">
        <p>" ++ summary_text ++ "</p>
    </div>
    <div class=\"image-block\">
        <h2>Répartition des sentiments par auteur</h2>
        <img src=\"data:image/png;base64," ++ sentiments_b64 ++ "\" width=\"700\"/>
    </div>
    <h2>Top 5 Auteurs les plus actifs</h2>
    " ++ top_table ++ "
</body>
</html>
"

/-- `html_report` of lines 127-178. -/
def html_report (k : Kpis) (evolution_b64 keywords_b64 summary_text sentiments_b64 top_table : String) :
    String :=
  htmlPre k evolution_b64 ++ kwSection keywords_b64 ++
    htmlPost summary_text sentiments_b64 top_table

/-! ## The pipeline (lines 47-186) -/

/-- `evolution_mentions_b64` (lines 66-73): the time-series chart image of
the daily series over the converted UTC dates. -/
def evolution_mentions_b64 (R : Renderer) (l : List Article) : String :=
  R.renderTimeSeries (dailySeriesOf (l.map (fun a => utcDayOf a.published_at)))

/-- `sentiments_auteurs_b64` (lines 108-114). -/
def sentiments_auteurs_b64 (R : Renderer) (l : List Article) : String :=
  R.renderAuthorChart (top_authors_sentiment l)

/-- `top_table` (lines 117-124) rendered to its HTML string. -/
def top_table_html (R : Renderer) (l : List Article) : String :=
  R.renderTable (top_table_rows l)

/-- The full document produced by a (successful) run. -/
def html_of (R : Renderer) (l : List Article) : String :=
  html_report (kpisOf l) (evolution_mentions_b64 R l) (keywords_freq_b64 R l)
    (summaryTextOf l) (sentiments_auteurs_b64 R l) (top_table_html R l)

/-- The endpoint body `analyser_json` (lines 47-186).

For an empty payload, `pd.DataFrame([])` at line 49 builds a dataframe
with no columns at all, so the column access `df[published_at]` at
line 51 raises `KeyError` and the run aborts before anything else
happens. Otherwise the timestamp conversion of line 51 is applied row by
row and the first out-of-range value aborts the run. On the success path
the converted dates equal `utcDayOf` of each `published_at`, every
aggregate is computed, the document is persisted (lines 179-181) and
returned together with the KPI dictionary (lines 183-186). -/
def analyser_json (R : Renderer) (payload : List Article) : Except Err RunResult :=
  if payload.isEmpty then .error .keyError
  else
    match mapExcept (fun a => utcfromtimestamp a.published_at) payload with
    | .error e => .error e
    | .ok _ =>
      .ok { kpis := kpisOf payload
            html_report := html_of R payload
            saved := html_of R payload }

/-- Whether a run succeeded. -/
def runOk : Except Err RunResult → Bool
  | .ok _ => true
  | .error _ => false

/-- Document of a run, or a marker for a failed one. -/
def runHtml : Except Err RunResult → String
  | .ok r => r.html_report
  | .error _ => "ERROR"

/-- A concrete renderer instance used for concrete evaluations: every
rendering call returns the empty string. -/
def R0 : Renderer where
  renderTimeSeries := fun _ => ""
  renderWordcloud := fun _ => ""
  renderAuthorChart := fun _ => ""
  renderTable := fun _ => ""

/-! ## Helper lemmas -/

theorem mem_dedupFirst [DecidableEq α] :
    ∀ (l : List α) (a : α), a ∈ dedupFirst l ↔ a ∈ l := by
  intro l
  induction l with
  | nil => intro a; simp [dedupFirst]
  | cons x xs ih =>
    intro a
    simp only [dedupFirst, List.mem_cons, List.mem_filter, decide_eq_true_eq, ih]
    constructor
    · rintro (rfl | ⟨h, _⟩)
      · exact Or.inl rfl
      · exact Or.inr h
    · rintro (rfl | h)
      · exact Or.inl rfl
      · by_cases hax : a = x
        · exact Or.inl hax
        · exact Or.inr ⟨h, hax⟩

theorem nodup_dedupFirst [DecidableEq α] :
    ∀ (l : List α), (dedupFirst l).Nodup := by
  intro l
  induction l with
  | nil => simp [dedupFirst]
  | cons x xs ih =>
    simp only [dedupFirst]
    refine List.Pairwise.cons ?_ (ih.filter _)
    intro b hb
    have := (List.mem_filter.mp hb).2
    simp only [decide_eq_true_eq] at this
    exact fun he => this he.symm

theorem firstIdx_cons_self [DecidableEq α] (x : α) (xs : List α) :
    firstIdx x (x :: xs) = 0 := by
  rw [firstIdx, if_pos rfl]

theorem firstIdx_cons_ne [DecidableEq α] {x a : α} (h : x ≠ a) (xs : List α) :
    firstIdx a (x :: xs) = firstIdx a xs + 1 := by
  rw [firstIdx, if_neg h]

theorem pairwise_firstIdx_dedupFirst [DecidableEq α] :
    ∀ (l : List α), (dedupFirst l).Pairwise (fun a b => firstIdx a l < firstIdx b l) := by
  intro l
  induction l with
  | nil => simp [dedupFirst]
  | cons x xs ih =>
    simp only [dedupFirst]
    refine List.Pairwise.cons ?_ ?_
    · intro b hb
      have hbx : b ≠ x := by
        have := (List.mem_filter.mp hb).2
        simpa using this
      rw [firstIdx_cons_self, firstIdx_cons_ne (fun he => hbx he.symm)]
      exact Nat.succ_pos _
    · have hpw : ((dedupFirst xs).filter (fun y => decide (y ≠ x))).Pairwise
          (fun a b => firstIdx a xs < firstIdx b xs) :=
        ih.sublist (List.filter_sublist (dedupFirst xs))
      refine hpw.imp_of_mem ?_
      intro a b ha hb hlt
      have hax : a ≠ x := by
        have := (List.mem_filter.mp ha).2; simpa using this
      have hbx : b ≠ x := by
        have := (List.mem_filter.mp hb).2; simpa using this
      rw [firstIdx_cons_ne (fun he => hax he.symm),
        firstIdx_cons_ne (fun he => hbx he.symm)]
      exact Nat.succ_lt_succ hlt

/-- Summing, over a duplicate-free list of keys covering every element of
`ds`, the multiplicity of each key in `ds` yields the length of `ds`. -/
theorem sum_map_count [DecidableEq β] (ds keys : List β) (hnd : keys.Nodup)
    (hcov : ∀ d ∈ ds, d ∈ keys) :
    (keys.map (fun k => ds.count k)).sum = ds.length := by
  have h1 : keys.toFinset.sum (fun k => ds.count k) = (keys.map (fun k => ds.count k)).sum :=
    List.sum_toFinset _ hnd
  have hsub : ds.toFinset ⊆ keys.toFinset := by
    intro x hx
    rw [List.mem_toFinset] at hx ⊢
    exact hcov x hx
  have h2 : ∑ k in ds.toFinset, ds.count k = ∑ k in keys.toFinset, ds.count k :=
    Finset.sum_subset hsub (fun x _ hnx =>
      List.count_eq_zero.mpr (by simpa using hnx))
  rw [← h1, ← h2, List.sum_toFinset_count_eq_length]

theorem pairwise_trivial (l : List α) : l.Pairwise (fun _ _ => True) := by
  induction l with
  | nil => exact List.Pairwise.nil
  | cons x xs ih => exact List.Pairwise.cons (fun _ _ => trivial) ih

/-- Insertion sort is stable: inserting into a list that is sorted by `r`
and whose ties respect `q` keeps both properties, provided every element
of the list already relates to the inserted one by `q`. -/
theorem orderedInsert_pairwise_stable (r q : α → α → Prop) [DecidableRel r]
    (htot : ∀ a b, r a b ∨ r b a) (htrans : ∀ a b c, r a b → r b c → r a c) (x : α) :
    ∀ l : List α, l.Pairwise (fun a b => r a b ∧ (r b a → q a b)) →
      (∀ y ∈ l, q x y) →
      (List.orderedInsert r x l).Pairwise (fun a b => r a b ∧ (r b a → q a b))
  | [], _, _ => by simp [List.orderedInsert]
  | y :: ys, hp, hq => by
    simp only [List.orderedInsert]
    split
    next hrxy =>
      rw [List.pairwise_cons]
      refine ⟨?_, hp⟩
      intro z hz
      rcases List.mem_cons.mp hz with rfl | hz'
      · exact ⟨hrxy, fun _ => hq z (List.mem_cons_self _ _)⟩
      · have hyz : r y z := ((List.pairwise_cons.mp hp).1 z hz').1
        exact ⟨htrans x y z hrxy hyz, fun _ => hq z (List.mem_cons_of_mem _ hz')⟩
    next hrxy =>
      rw [List.pairwise_cons]
      obtain ⟨hy, hys⟩ := List.pairwise_cons.mp hp
      refine ⟨?_, orderedInsert_pairwise_stable r q htot htrans x ys hys
        (fun z hz => hq z (List.mem_cons_of_mem _ hz))⟩
      intro z hz
      rcases (List.mem_orderedInsert r).mp hz with he | hz'
      · subst he
        exact ⟨(htot z y).resolve_left hrxy, fun hxy => absurd hxy hrxy⟩
      · exact hy z hz'

/-- Stability of the whole sort: on an input pairwise related by `q`,
ties of the sorted output still respect `q`. -/
theorem insertionSort_pairwise_stable (r q : α → α → Prop) [DecidableRel r]
    (htot : ∀ a b, r a b ∨ r b a) (htrans : ∀ a b c, r a b → r b c → r a c) :
    ∀ l : List α, l.Pairwise q →
      (List.insertionSort r l).Pairwise (fun a b => r a b ∧ (r b a → q a b))
  | [], _ => by simp [List.insertionSort]
  | x :: xs, hp => by
    rw [List.insertionSort]
    obtain ⟨hx, hxs⟩ := List.pairwise_cons.mp hp
    exact orderedInsert_pairwise_stable r q htot htrans x _
      (insertionSort_pairwise_stable r q htot htrans xs hxs)
      (fun y hy => hx y ((List.mem_insertionSort r).mp hy))

theorem sentiment_count_split (l : List Article) :
    l.countP (fun a => a.sentiment_label == "positive") +
      l.countP (fun a => a.sentiment_label == "negative") +
      l.countP (fun a => a.sentiment_label == "neutral") =
    l.countP (fun a => a.sentiment_label == "positive" ||
      a.sentiment_label == "negative" || a.sentiment_label == "neutral") := by
  induction l with
  | nil => rfl
  | cons x t ih =>
    simp only [List.countP_cons]
    by_cases hp : x.sentiment_label = "positive"
    · simp [hp]; omega
    · by_cases hq : x.sentiment_label = "negative"
      · simp [hq]; omega
      · by_cases hr : x.sentiment_label = "neutral"
        · simp [hr]; omega
        · simp only [beq_eq_false_iff_ne, ne_eq, hp, hq, hr, Bool.or_eq_true, beq_iff_eq,
            or_self, if_neg, if_false]
          simp [hp, hq, hr]
          omega

/-! ## C2 -/

/-- C2: for every input batch, the KPI summary has total equal to the
batch length; positive, negative and neutral are the numbers of records
whose sentiment label is exactly the corresponding canonical string;
consequently positive + negative + neutral is at most the total, with
equality exactly when every label is one of the three canonical
strings. -/
theorem C2_kpi_summary (l : List Article) :
    (kpisOf l).total_mentions = l.length ∧
    (kpisOf l).positive = (l.filter (fun a => a.sentiment_label == "positive")).length ∧
    (kpisOf l).negative = (l.filter (fun a => a.sentiment_label == "negative")).length ∧
    (kpisOf l).neutral = (l.filter (fun a => a.sentiment_label == "neutral")).length ∧
    (kpisOf l).positive + (kpisOf l).negative + (kpisOf l).neutral ≤
      (kpisOf l).total_mentions ∧
    ((kpisOf l).positive + (kpisOf l).negative + (kpisOf l).neutral =
        (kpisOf l).total_mentions ↔
      ∀ a ∈ l, a.sentiment_label = "positive" ∨ a.sentiment_label = "negative" ∨
        a.sentiment_label = "neutral") := by
  refine ⟨rfl, (List.countP_eq_length_filter _ _), (List.countP_eq_length_filter _ _),
    (List.countP_eq_length_filter _ _), ?_, ?_⟩
  · show l.countP _ + l.countP _ + l.countP _ ≤ l.length
    rw [sentiment_count_split]
    exact List.countP_le_length _
  · show l.countP _ + l.countP _ + l.countP _ = l.length ↔ _
    rw [sentiment_count_split, List.countP_eq_length]
    constructor
    · intro h a ha
      have := h a ha
      simpa [or_assoc] using this
    · intro h a ha
      have := h a ha
      simpa [or_assoc] using this

/-! ## C3 -/

theorem dailySeriesOf_spec (ds : List Int) :
    (dailySeriesOf ds).Pairwise (fun p q => p.1 < q.1) ∧
    (∀ d : Int, d ∈ (dailySeriesOf ds).map (fun p => p.1) ↔ d ∈ ds) ∧
    (∀ p ∈ dailySeriesOf ds, p.2 = ds.count p.1) ∧
    ((dailySeriesOf ds).map (fun p => p.2)).sum = ds.length := by
  have hperm : List.Perm (List.insertionSort (· ≤ ·) (dedupFirst ds)) (dedupFirst ds) :=
    List.perm_insertionSort _ _
  have hnd : List.Nodup (List.insertionSort (· ≤ ·) (dedupFirst ds)) :=
    hperm.nodup_iff.mpr (nodup_dedupFirst ds)
  have hsorted : List.Sorted (· ≤ ·) (List.insertionSort (· ≤ ·) (dedupFirst ds)) :=
    List.sorted_insertionSort _ _
  refine ⟨?_, ?_, ?_, ?_⟩
  · rw [dailySeriesOf, List.pairwise_map]
    exact (hsorted.and hnd).imp (fun h => lt_of_le_of_ne h.1 h.2)
  · intro d
    rw [dailySeriesOf, List.map_map]
    have : ((fun p => p.1) ∘ fun d => (d, ds.count d)) = (id : Int → Int) := rfl
    rw [this, List.map_id, hperm.mem_iff, mem_dedupFirst]
  · intro p hp
    rw [dailySeriesOf] at hp
    obtain ⟨d, _, rfl⟩ := List.mem_map.mp hp
    rfl
  · rw [dailySeriesOf, List.map_map]
    have h1 : ((List.insertionSort (· ≤ ·) (dedupFirst ds)).map
        ((fun p => p.2) ∘ fun d => (d, ds.count d))).sum =
        ((dedupFirst ds).map (fun d => ds.count d)).sum :=
      (hperm.map _).sum_eq
    rw [h1]
    exact sum_map_count ds (dedupFirst ds) (nodup_dedupFirst ds)
      (fun d hd => (mem_dedupFirst ds d).mpr hd)

/-- C3: for every input batch, the daily series has exactly one entry per
distinct UTC calendar date of the published-at values, its dates are
strictly ascending, each count is the number of records falling on that
date, and the counts sum to the number of records. -/
theorem C3_daily_series (l : List Article) :
    (dailySeriesOf (l.map (fun a => utcDayOf a.published_at))).Pairwise
      (fun p q => p.1 < q.1) ∧
    (∀ d : Int, d ∈ (dailySeriesOf (l.map (fun a => utcDayOf a.published_at))).map
        (fun p => p.1) ↔ d ∈ l.map (fun a => utcDayOf a.published_at)) ∧
    (∀ p ∈ dailySeriesOf (l.map (fun a => utcDayOf a.published_at)),
      p.2 = (l.map (fun a => utcDayOf a.published_at)).count p.1) ∧
    ((dailySeriesOf (l.map (fun a => utcDayOf a.published_at))).map
      (fun p => p.2)).sum = l.length := by
  obtain ⟨h1, h2, h3, h4⟩ := dailySeriesOf_spec (l.map (fun a => utcDayOf a.published_at))
  exact ⟨h1, h2, h3, by rw [h4, List.length_map]⟩

/-! ## Concrete inputs for witnesses and counterexamples -/

/-- A concrete article with the fields the pipeline inspects. -/
def mkArticle (author : String) (ts : Int) (label : String) (kws : List String) : Article where
  author := author
  content_excerpt := ""
  published_at := ts
  sentiment_label := label
  title := ""
  source_link := ""
  keywords := kws

/-- The three-record example batch of the specification. -/
def batch3 : List Article :=
  [mkArticle "alice" 86400 "positive" ["ai", "policy"],
   mkArticle "bob" 172800 "negative" ["ai"],
   mkArticle "alice" 86400 "positive" []]

/-- One article with a single keyword. -/
def singleKwBatch : List Article :=
  [mkArticle "alice" 0 "positive" ["ai"]]

/-- One article with no keyword at all. -/
def noKwBatch : List Article :=
  [mkArticle "alice" 0 "neutral" []]

/-- One article whose epoch timestamp is outside the representable
range of `datetime.utcfromtimestamp`. -/
def badTsBatch : List Article :=
  [mkArticle "alice" 999999999999 "positive" []]

/-! ## C1 -/

/-- C1 (code bug): the claim and the specification require an empty
batch to succeed with all-zero KPIs and an empty summary paragraph, but
the code aborts: `pd.DataFrame([])` has no columns, so the access
`df[published_at]` at line 51 raises `KeyError` before any aggregate is
computed, and no report is produced. -/
theorem C1_empty_batch_fails (R : Renderer) :
    analyser_json R [] = .error .keyError := rfl

/-! ## C9 -/

theorem mapExcept_error_of_invalid :
    ∀ l : List Article, (∃ a ∈ l, ¬ validTimestamp a.published_at) →
      mapExcept (fun a => utcfromtimestamp a.published_at) l = .error .invalidTimestamp := by
  intro l h
  induction l with
  | nil => obtain ⟨a, ha, _⟩ := h; simp at ha
  | cons x t ih =>
    by_cases hx : validTimestamp x.published_at
    · obtain ⟨a, ha, hna⟩ := h
      have hat : a ∈ t := by
        rcases List.mem_cons.mp ha with rfl | h'
        · exact absurd hx hna
        · exact h'
      have ht := ih ⟨a, hat, hna⟩
      rw [mapExcept, show utcfromtimestamp x.published_at = Except.ok x.published_at from
        by rw [utcfromtimestamp, if_pos hx], ht]
      rfl
    · rw [mapExcept, show utcfromtimestamp x.published_at = Except.error Err.invalidTimestamp from
        by rw [utcfromtimestamp, if_neg hx]]
      rfl

theorem mapExcept_ok_of_valid (l : List Article)
    (hv : ∀ a ∈ l, validTimestamp a.published_at) :
    mapExcept (fun a => utcfromtimestamp a.published_at) l =
      .ok (l.map (fun a => a.published_at)) := by
  induction l with
  | nil => rfl
  | cons x t ih =>
    have hx : validTimestamp x.published_at := hv x (List.mem_cons_self _ _)
    rw [mapExcept, show utcfromtimestamp x.published_at = Except.ok x.published_at from
      by rw [utcfromtimestamp, if_pos hx],
      ih (fun a ha => hv a (List.mem_cons_of_mem _ ha))]
    rfl

/-- C9: if any record carries an epoch value that
`datetime.utcfromtimestamp` cannot interpret, the whole run fails with
the invalid-timestamp error, so no report is produced, persisted or
returned. -/
theorem C9_invalid_timestamp_aborts (R : Renderer) (l : List Article)
    (h : ∃ a ∈ l, ¬ validTimestamp a.published_at) :
    analyser_json R l = .error .invalidTimestamp := by
  have hne : l.isEmpty = false := by
    obtain ⟨a, ha, _⟩ := h
    cases l
    · simp at ha
    · rfl
  rw [analyser_json, if_neg (by simp [hne]), mapExcept_error_of_invalid l h]

/-- Witness for C9 at a concrete out-of-range timestamp. -/
theorem C9_invalid_timestamp_aborts_witness :
    (∃ a ∈ badTsBatch, ¬ validTimestamp a.published_at) ∧
      analyser_json R0 badTsBatch = .error .invalidTimestamp :=
  ⟨by decide, C9_invalid_timestamp_aborts R0 badTsBatch (by decide)⟩

/-! ## C4 -/

theorem cntGe_total : ∀ p q : String × Nat, cntGe p q ∨ cntGe q p :=
  fun p q => Nat.le_total q.2 p.2

theorem cntGe_trans : ∀ p q s : String × Nat, cntGe p q → cntGe q s → cntGe p s :=
  fun _ _ _ h1 h2 => le_trans h2 h1

theorem keywordFreq_pairwise_firstIdx (l : List Article) :
    (keywordFreq l).Pairwise
      (fun p q => firstIdx p.1 (all_keywords l) < firstIdx q.1 (all_keywords l)) := by
  rw [keywordFreq, List.pairwise_map]
  exact pairwise_firstIdx_dedupFirst (all_keywords l)

/-- C4: for every batch with at least one keyword, the keyword-frequency
table is indexed by the distinct lowercased flattened keywords, each with
its number of occurrences, and the counts sum to the total number of
keyword occurrences; the top-6 keywords are the first six entries of the
table ordered by strictly descending count with ties broken by the order
of first appearance in the flattened sequence. -/
theorem C4_keyword_frequency (l : List Article) (hkw : all_keywords l ≠ []) :
    ((keywordFreq l).map (fun p => p.2)).sum = (all_keywords l).length ∧
    (∀ p ∈ keywordFreq l, p.2 = (all_keywords l).count p.1) ∧
    (∀ k : String, k ∈ (keywordFreq l).map (fun p => p.1) ↔ k ∈ all_keywords l) ∧
    ∃ ranked : List (String × Nat),
      List.Perm ranked (keywordFreq l) ∧
      ranked.Pairwise (fun p q => q.2 < p.2 ∨
        (p.2 = q.2 ∧ firstIdx p.1 (all_keywords l) < firstIdx q.1 (all_keywords l))) ∧
      top_keywords l = (ranked.take 6).map (fun p => p.1) := by
  refine ⟨?_, ?_, ?_, ?_⟩
  · rw [keywordFreq, List.map_map]
    exact sum_map_count (all_keywords l) (dedupFirst (all_keywords l))
      (nodup_dedupFirst _) (fun d hd => (mem_dedupFirst _ d).mpr hd)
  · intro p hp
    rw [keywordFreq] at hp
    obtain ⟨k, _, rfl⟩ := List.mem_map.mp hp
    rfl
  · intro k
    rw [keywordFreq, List.map_map]
    have : ((fun p : String × Nat => p.1) ∘ fun k => (k, (all_keywords l).count k)) =
        (id : String → String) := rfl
    rw [this, List.map_id, mem_dedupFirst]
  · refine ⟨List.insertionSort cntGe (keywordFreq l), List.perm_insertionSort _ _, ?_, rfl⟩
    have hstable := insertionSort_pairwise_stable cntGe
      (fun p q : String × Nat => firstIdx p.1 (all_keywords l) < firstIdx q.1 (all_keywords l))
      cntGe_total cntGe_trans (keywordFreq l) (keywordFreq_pairwise_firstIdx l)
    refine hstable.imp ?_
    rintro p q ⟨h1, h2⟩
    rcases Nat.lt_or_ge q.2 p.2 with hlt | hge
    · exact Or.inl hlt
    · exact Or.inr ⟨Nat.le_antisymm hge h1, h2 hge⟩

/-- Witness for C4 at the three-record example batch of the spec. -/
theorem C4_keyword_frequency_witness :
    (all_keywords batch3 ≠ []) ∧
    (((keywordFreq batch3).map (fun p => p.2)).sum = (all_keywords batch3).length ∧
      (∀ p ∈ keywordFreq batch3, p.2 = (all_keywords batch3).count p.1) ∧
      (∀ k : String, k ∈ (keywordFreq batch3).map (fun p => p.1) ↔ k ∈ all_keywords batch3) ∧
      ∃ ranked : List (String × Nat),
        List.Perm ranked (keywordFreq batch3) ∧
        ranked.Pairwise (fun p q => q.2 < p.2 ∨
          (p.2 = q.2 ∧ firstIdx p.1 (all_keywords batch3) < firstIdx q.1 (all_keywords batch3))) ∧
        top_keywords batch3 = (ranked.take 6).map (fun p => p.1)) :=
  ⟨by decide, C4_keyword_frequency batch3 (by decide)⟩

/-! ## C5 -/

theorem top_keywords_ne_nil_of_all_keywords_ne_nil (l : List Article)
    (h : all_keywords l ≠ []) : top_keywords l ≠ [] := by
  rw [top_keywords, most_common6]
  intro he
  apply h
  have hlen := congrArg List.length he
  rw [List.length_map, List.length_take, List.length_insertionSort, keywordFreq,
    List.length_map, List.length_nil] at hlen
  have hd : (dedupFirst (all_keywords l)).length = 0 := by omega
  cases hak : all_keywords l with
  | nil => rfl
  | cons x xs =>
    rw [hak] at hd
    simp [dedupFirst] at hd

/-- C5 counterexample: with exactly one top keyword the synthesized
sentence does not degrade gracefully: the join of the empty prefix list
leaves a dangling conjunction, producing "... sont  et ai. ..." instead
of naming the single keyword without the conjunction. -/
theorem C5_single_keyword_dangling_et :
    top_keywords singleKwBatch = ["ai"] ∧
    summaryTextOf singleKwBatch =
      "Les mots-clés les plus récurrents dans la couverture médiatique sont  et ai. Cela reflète les thématiques principales abordées dans les articles analysés." ∧
    summaryTextOf singleKwBatch ≠
      "Les mots-clés les plus récurrents dans la couverture médiatique sont ai. Cela reflète les thématiques principales abordées dans les articles analysés." := by
  refine ⟨by decide, by decide, by decide⟩

/-- C5 (amended): whenever at least one top keyword exists, the summary
sentence joins all top keywords but the last with commas and appends the
conjunction and the last keyword, in rank order; with a single top
keyword the comma-joined prefix is empty, so the sentence keeps a
dangling conjunction rather than degrading gracefully. -/
theorem C5_summary_sentence (l : List Article) (h : top_keywords l ≠ []) :
    summaryTextOf l =
      "Les mots-clés les plus récurrents dans la couverture médiatique sont " ++
        String.intercalate ", " (top_keywords l).dropLast ++ " et " ++
        (top_keywords l).getLastD "" ++
        ". Cela reflète les thématiques principales abordées dans les articles analysés." := by
  have hak : ¬((all_keywords l).isEmpty = true) := by
    intro he
    apply h
    rw [List.isEmpty_iff] at he
    rw [top_keywords, most_common6, keywordFreq, he]
    rfl
  have htop : ¬((top_keywords l).isEmpty = true) := by
    intro he
    exact h (List.isEmpty_iff.mp he)
  rw [summaryTextOf, if_neg hak, if_neg htop, summarySentence]

/-- Witness for C5 at the three-record example batch. -/
theorem C5_summary_sentence_witness :
    (top_keywords batch3 ≠ []) ∧
    summaryTextOf batch3 =
      "Les mots-clés les plus récurrents dans la couverture médiatique sont " ++
        String.intercalate ", " (top_keywords batch3).dropLast ++ " et " ++
        (top_keywords batch3).getLastD "" ++
        ". Cela reflète les thématiques principales abordées dans les articles analysés." :=
  ⟨by decide, C5_summary_sentence batch3 (by decide)⟩

/-! ## C6 -/

/-- C6 counterexample: with no keywords at all the run does succeed, no
wordcloud image is produced and the summary paragraph is empty, but the
keyword section is NOT omitted from the document: the composed HTML
still contains the full keyword block, with an empty base64 payload in
its image tag. -/
theorem C6_keyword_section_not_omitted :
    runOk (analyser_json R0 noKwBatch) = true ∧
    keywords_freq_b64 R0 noKwBatch = "" ∧
    summaryTextOf noKwBatch = "" ∧
    ∃ s t : String, runHtml (analyser_json R0 noKwBatch) = s ++ kwSection "" ++ t := by
  refine ⟨rfl, rfl, rfl,
    htmlPre (kpisOf noKwBatch) (evolution_mentions_b64 R0 noKwBatch),
    htmlPost (summaryTextOf noKwBatch) (sentiments_auteurs_b64 R0 noKwBatch)
      (top_table_html R0 noKwBatch), ?_⟩
  rfl

/-- C6 (amended): for a non-empty batch of valid timestamps whose
flattened keyword set is empty, the run succeeds, no keyword image is
produced (its string is empty) and the summary paragraph is empty, but
the keyword section with its empty image is still part of the composed
document rather than being omitted. -/
theorem C6_no_keywords_degraded_path (R : Renderer) (l : List Article)
    (hne : l ≠ []) (hv : ∀ a ∈ l, validTimestamp a.published_at)
    (hk : all_keywords l = []) :
    keywords_freq_b64 R l = "" ∧
    summaryTextOf l = "" ∧
    ∃ r : RunResult, analyser_json R l = .ok r ∧
      ∃ s t : String, r.html_report = s ++ kwSection "" ++ t := by
  have hke : (all_keywords l).isEmpty = true := by rw [hk]; rfl
  have hb64 : keywords_freq_b64 R l = "" := by
    rw [keywords_freq_b64, if_pos hke]
  have hne' : l.isEmpty = false := by
    cases l
    · exact absurd rfl hne
    · rfl
  refine ⟨hb64, by rw [summaryTextOf, if_pos hke], ?_⟩
  refine ⟨{ kpis := kpisOf l, html_report := html_of R l, saved := html_of R l }, ?_, ?_⟩
  · rw [analyser_json, if_neg (by simp [hne']), mapExcept_ok_of_valid l hv]
  · refine ⟨htmlPre (kpisOf l) (evolution_mentions_b64 R l),
      htmlPost (summaryTextOf l) (sentiments_auteurs_b64 R l) (top_table_html R l), ?_⟩
    show html_of R l = _
    rw [html_of, html_report, hb64]

/-- Witness for C6 (amended) at a concrete one-record batch without
keywords. -/
theorem C6_no_keywords_degraded_path_witness :
    (noKwBatch ≠ [] ∧ (∀ a ∈ noKwBatch, validTimestamp a.published_at) ∧
      all_keywords noKwBatch = []) ∧
    (keywords_freq_b64 R0 noKwBatch = "" ∧
      summaryTextOf noKwBatch = "" ∧
      ∃ r : RunResult, analyser_json R0 noKwBatch = .ok r ∧
        ∃ s t : String, r.html_report = s ++ kwSection "" ++ t) :=
  ⟨⟨by decide, by decide, by decide⟩,
    C6_no_keywords_degraded_path R0 noKwBatch (by decide) (by decide) (by decide)⟩

/-! ## Author aggregation lemmas -/

instance : IsTotal (String × Nat) cntGe :=
  ⟨fun p q => Nat.le_total q.2 p.2⟩

instance : IsTrans (String × Nat) cntGe :=
  ⟨fun _ _ _ h1 h2 => le_trans h2 h1⟩

instance : IsTotal (String × List (String × Nat) × Nat) totGe :=
  ⟨fun p q => Nat.le_total q.2.2 p.2.2⟩

instance : IsTrans (String × List (String × Nat) × Nat) totGe :=
  ⟨fun _ _ _ h1 h2 => le_trans h2 h1⟩

theorem nodup_authorsSortedOf (l : List Article) : (authorsSortedOf l).Nodup :=
  (List.perm_insertionSort _ _).nodup_iff.mpr (nodup_dedupFirst _)

theorem mem_authorsSortedOf (l : List Article) (a : String) :
    a ∈ authorsSortedOf l ↔ a ∈ l.map (fun x => x.author) := by
  rw [authorsSortedOf, List.mem_insertionSort, mem_dedupFirst]

theorem nodup_sentLabelsOf (l : List Article) : (sentLabelsOf l).Nodup :=
  (List.perm_insertionSort _ _).nodup_iff.mpr (nodup_dedupFirst _)

theorem mem_sentLabelsOf (l : List Article) (s : String) :
    s ∈ sentLabelsOf l ↔ s ∈ l.map (fun x => x.sentiment_label) := by
  rw [sentLabelsOf, List.mem_insertionSort, mem_dedupFirst]

theorem author_count_eq (l : List Article) (a : String) :
    (l.map (fun x => x.author)).count a = l.countP (fun x => x.author == a) := by
  induction l with
  | nil => rfl
  | cons x t ih => simp [List.count_cons, List.countP_cons, ih]

theorem cell_count_eq (l : List Article) (a s : String) :
    l.countP (fun x => x.author == a && x.sentiment_label == s) =
      ((l.filter (fun x => x.author == a)).map (fun x => x.sentiment_label)).count s := by
  induction l with
  | nil => rfl
  | cons x t ih =>
    by_cases ha : x.author = a
    · by_cases hs : x.sentiment_label = s
      · simp [List.countP_cons, List.filter_cons, ha, hs, List.count_cons, ih]
      · simp [List.countP_cons, List.filter_cons, ha, hs, List.count_cons, ih]
    · simp [List.countP_cons, List.filter_cons, ha, List.count_cons, ih]

/-- The `Total` column of the author-sentiment table equals the raw
mention count of the author: the per-sentiment cells of a row partition
the records of that author. -/
theorem authorRow_sum (l : List Article) (a : String) :
    ((authorRow l a).map (fun q => q.2)).sum = (l.map (fun x => x.author)).count a := by
  rw [authorRow, List.map_map]
  have hpt : ∀ s ∈ sentLabelsOf l,
      ((fun q : String × Nat => q.2) ∘
        (fun s => (s, l.countP (fun x => x.author == a && x.sentiment_label == s)))) s =
      ((l.filter (fun x => x.author == a)).map (fun x => x.sentiment_label)).count s :=
    fun s _ => cell_count_eq l a s
  rw [List.map_congr_left hpt, sum_map_count _ _ (nodup_sentLabelsOf l) ?_]
  · rw [List.length_map, author_count_eq, List.countP_eq_length_filter]
  · intro d hd
    rw [mem_sentLabelsOf]
    obtain ⟨x, hx, rfl⟩ := List.mem_map.mp hd
    exact List.mem_map.mpr ⟨x, (List.mem_filter.mp hx).1, rfl⟩

/-! ## C10 -/

/-- C10: for every author row of the author-sentiment table (before the
top-10 restriction), the sum of the per-sentiment counts over all
sentiment labels of the batch equals the raw mention count of the
author, which is exactly the count entry the author-ranking table is
built from. -/
theorem C10_author_aggregates_consistent (l : List Article)
    (p : String × List (String × Nat) × Nat) (hp : p ∈ author_sentiment l) :
    (p.2.1.map (fun q => q.2)).sum = (l.map (fun x => x.author)).count p.1 ∧
    (p.1, (p.2.1.map (fun q => q.2)).sum) ∈ authorCounts l := by
  rw [author_sentiment] at hp
  obtain ⟨a, ha, rfl⟩ := List.mem_map.mp hp
  refine ⟨authorRow_sum l a, ?_⟩
  rw [authorCounts]
  refine List.mem_map.mpr ⟨a, ?_, ?_⟩
  · rw [authorsSortedOf, List.mem_insertionSort] at ha
    exact ha
  · rw [authorRow_sum]

/-- Witness for C10 at the alice row of the example batch. -/
theorem C10_author_aggregates_consistent_witness :
    ((("alice", [("negative", 0), ("positive", 2)], 2) :
        String × List (String × Nat) × Nat) ∈ author_sentiment batch3) ∧
    (([("negative", 0), ("positive", 2)].map (fun q : String × Nat => q.2)).sum =
        (batch3.map (fun x => x.author)).count "alice" ∧
      ("alice", ([("negative", 0), ("positive", 2)].map (fun q : String × Nat => q.2)).sum)
        ∈ authorCounts batch3) :=
  ⟨by decide, C10_author_aggregates_consistent batch3
    ("alice", [("negative", 0), ("positive", 2)], 2) (by decide)⟩

/-! ## C8 -/

/-- C8: the author-ranking table has at most 5 rows, its counts are the
raw mention counts sorted in descending order, its authors are distinct
authors of the batch, and no kept author has fewer mentions than any
omitted author. -/
theorem C8_author_ranking_table (l : List Article) :
    (top_table_rows l).length ≤ 5 ∧
    ((top_table_rows l).map (fun p => p.2)).Pairwise (fun m n => n ≤ m) ∧
    (∀ p ∈ top_table_rows l, p.2 = (l.map (fun x => x.author)).count p.1) ∧
    ((top_table_rows l).map (fun p => p.1)).Nodup ∧
    (∀ p ∈ top_table_rows l, p.1 ∈ l.map (fun x => x.author)) ∧
    (∀ p ∈ top_table_rows l, ∀ a, a ∈ l.map (fun x => x.author) →
      a ∉ (top_table_rows l).map (fun p => p.1) →
      (l.map (fun x => x.author)).count a ≤ p.2) := by
  have hperm : List.Perm (value_counts_authors l) (authorCounts l) :=
    List.perm_insertionSort _ _
  have hsorted : List.Pairwise cntGe (value_counts_authors l) :=
    List.sorted_insertionSort _ _
  have hsub : List.Sublist (top_table_rows l) (value_counts_authors l) :=
    List.take_sublist _ _
  have hcnt : ∀ p ∈ value_counts_authors l,
      p.2 = (l.map (fun x => x.author)).count p.1 := by
    intro p hp
    have hm := hperm.mem_iff.mp hp
    rw [authorCounts] at hm
    obtain ⟨a, _, rfl⟩ := List.mem_map.mp hm
    rfl
  have hkeys : ((authorCounts l).map (fun p => p.1)) =
      dedupFirst (l.map (fun x => x.author)) := by
    rw [authorCounts, List.map_map]
    have hc : ((fun p : String × Nat => p.1) ∘
        (fun a => (a, (l.map (fun x => x.author)).count a))) = (id : String → String) := rfl
    rw [hc, List.map_id]
  refine ⟨List.length_take_le _ _, ?_, fun p hp => hcnt p (hsub.subset hp), ?_, ?_, ?_⟩
  · rw [List.pairwise_map]
    exact hsorted.sublist hsub
  · have hpm := hperm.map (fun p : String × Nat => p.1)
    rw [hkeys] at hpm
    exact (hpm.nodup_iff.mpr (nodup_dedupFirst _)).sublist (hsub.map _)
  · intro p hp
    have hm := hperm.mem_iff.mp (hsub.subset hp)
    rw [authorCounts] at hm
    obtain ⟨a, ha, rfl⟩ := List.mem_map.mp hm
    exact (mem_dedupFirst _ a).mp ha
  · intro p hp a hmem hnotin
    have hq : (a, (l.map (fun x => x.author)).count a) ∈ authorCounts l := by
      rw [authorCounts]
      exact List.mem_map.mpr ⟨a, (mem_dedupFirst _ a).mpr hmem, rfl⟩
    have hqS : (a, (l.map (fun x => x.author)).count a) ∈ value_counts_authors l :=
      hperm.mem_iff.mpr hq
    have hsplit : value_counts_authors l =
        (value_counts_authors l).take 5 ++ (value_counts_authors l).drop 5 :=
      (List.take_append_drop _ _).symm
    have hpw := hsorted
    rw [hsplit] at hpw
    obtain ⟨_, _, hrel⟩ := List.pairwise_append.mp hpw
    rcases List.mem_append.mp (hsplit ▸ hqS) with htk | hdr
    · exact absurd (List.mem_map.mpr ⟨_, htk, rfl⟩) hnotin
    · exact hrel p hp _ hdr

/-! ## C7 -/

/-- C7: the rendered author-sentiment matrix consists of the rows of the
author-by-sentiment count table restricted to the 10 authors of largest
row total, with the total column dropped and the row order reversed so
that the remaining row sums read ascending from top to bottom; each cell
holds the number of records of that author carrying that sentiment
label, and no kept author has a smaller total than an omitted author. -/
theorem C7_author_sentiment_matrix (l : List Article) :
    (top_authors_sentiment l).length =
      min 10 (dedupFirst (l.map (fun a => a.author))).length ∧
    ((top_authors_sentiment l).map (fun r => r.1)).Nodup ∧
    (∀ r ∈ top_authors_sentiment l, r.1 ∈ l.map (fun x => x.author)) ∧
    (∀ r ∈ top_authors_sentiment l, r.2 = authorRow l r.1) ∧
    (∀ r ∈ top_authors_sentiment l, ∀ c ∈ r.2,
      c.2 = l.countP (fun x => x.author == r.1 && x.sentiment_label == c.1)) ∧
    ((top_authors_sentiment l).map
      (fun r => (r.2.map (fun c => c.2)).sum)).Pairwise (· ≤ ·) ∧
    (∀ r ∈ top_authors_sentiment l, ∀ a, a ∈ l.map (fun x => x.author) →
      a ∉ (top_authors_sentiment l).map (fun r => r.1) →
      (l.map (fun x => x.author)).count a ≤ (r.2.map (fun c => c.2)).sum) := by
  have hperm : List.Perm (List.insertionSort totGe (author_sentiment l))
      (author_sentiment l) := List.perm_insertionSort _ _
  have hsorted : List.Pairwise totGe (List.insertionSort totGe (author_sentiment l)) :=
    List.sorted_insertionSort _ _
  have htksub : List.Sublist ((List.insertionSort totGe (author_sentiment l)).take 10)
      (List.insertionSort totGe (author_sentiment l)) := List.take_sublist _ _
  have hstruct : ∀ p ∈ List.insertionSort totGe (author_sentiment l),
      p.2.1 = authorRow l p.1 ∧ p.2.2 = ((authorRow l p.1).map (fun c => c.2)).sum ∧
        p.1 ∈ authorsSortedOf l := by
    intro p hp
    have hm := hperm.mem_iff.mp hp
    rw [author_sentiment] at hm
    obtain ⟨a, ha, rfl⟩ := List.mem_map.mp hm
    exact ⟨rfl, rfl, ha⟩
  have hmemM : ∀ r ∈ top_authors_sentiment l,
      ∃ p ∈ (List.insertionSort totGe (author_sentiment l)).take 10, r = (p.1, p.2.1) := by
    intro r hr
    rw [top_authors_sentiment, List.mem_reverse] at hr
    obtain ⟨p, hp, rfl⟩ := List.mem_map.mp hr
    exact ⟨p, hp, rfl⟩
  refine ⟨?_, ?_, ?_, ?_, ?_, ?_, ?_⟩
  · rw [top_authors_sentiment, List.length_reverse, List.length_map, List.length_take,
      List.length_insertionSort, author_sentiment, List.length_map, authorsSortedOf,
      List.length_insertionSort]
  · rw [top_authors_sentiment, List.map_reverse, List.nodup_reverse, List.map_map]
    have hc : ((fun r : String × List (String × Nat) => r.1) ∘
        (fun p : String × List (String × Nat) × Nat => (p.1, p.2.1))) =
        (fun p : String × List (String × Nat) × Nat => p.1) := rfl
    rw [hc]
    have hkeys : ((author_sentiment l).map
        (fun p : String × List (String × Nat) × Nat => p.1)) = authorsSortedOf l := by
      rw [author_sentiment, List.map_map]
      have hc2 : ((fun p : String × List (String × Nat) × Nat => p.1) ∘
          (fun a => (a, authorRow l a, ((authorRow l a).map (fun p => p.2)).sum))) =
          (id : String → String) := rfl
      rw [hc2, List.map_id]
    have hpm := hperm.map (fun p : String × List (String × Nat) × Nat => p.1)
    rw [hkeys] at hpm
    exact (hpm.nodup_iff.mpr (nodup_authorsSortedOf _)).sublist (htksub.map _)
  · intro r hr
    obtain ⟨p, hp, rfl⟩ := hmemM r hr
    exact (mem_authorsSortedOf l p.1).mp (hstruct p (htksub.subset hp)).2.2
  · intro r hr
    obtain ⟨p, hp, rfl⟩ := hmemM r hr
    exact (hstruct p (htksub.subset hp)).1
  · intro r hr c hc
    obtain ⟨p, hp, rfl⟩ := hmemM r hr
    have h1 := (hstruct p (htksub.subset hp)).1
    have hc' : c ∈ authorRow l p.1 := by
      rw [← h1]; exact hc
    rw [authorRow] at hc'
    obtain ⟨s, _, rfl⟩ := List.mem_map.mp hc'
    rfl
  · rw [top_authors_sentiment, List.map_reverse, List.pairwise_reverse, List.map_map,
      List.pairwise_map]
    have hT : List.Pairwise totGe
        ((List.insertionSort totGe (author_sentiment l)).take 10) :=
      hsorted.sublist htksub
    refine hT.imp_of_mem ?_
    intro p q hp hq hrel
    have h1 := hstruct p (htksub.subset hp)
    have h2 := hstruct q (htksub.subset hq)
    show ((q.1, q.2.1).2.map (fun c => c.2)).sum ≤ ((p.1, p.2.1).2.map (fun c => c.2)).sum
    rw [show (q.1, q.2.1).2 = q.2.1 from rfl, show (p.1, p.2.1).2 = p.2.1 from rfl,
      h1.1, h2.1, ← h1.2.1, ← h2.2.1]
    exact hrel
  · intro r hr a hmem hnotin
    obtain ⟨p, hp, rfl⟩ := hmemM r hr
    have hqa : (a, authorRow l a, ((authorRow l a).map (fun p => p.2)).sum)
        ∈ author_sentiment l := by
      rw [author_sentiment]
      exact List.mem_map.mpr ⟨a, (mem_authorsSortedOf l a).mpr hmem, rfl⟩
    have hqS := hperm.mem_iff.mpr hqa
    have hsplit : List.insertionSort totGe (author_sentiment l) =
        (List.insertionSort totGe (author_sentiment l)).take 10 ++
          (List.insertionSort totGe (author_sentiment l)).drop 10 :=
      (List.take_append_drop _ _).symm
    have hpw := hsorted
    rw [hsplit] at hpw
    obtain ⟨_, _, hrel⟩ := List.pairwise_append.mp hpw
    rcases List.mem_append.mp (hsplit ▸ hqS) with htk | hdr
    · refine absurd ?_ hnotin
      rw [top_authors_sentiment, List.map_reverse, List.mem_reverse, List.map_map]
      exact List.mem_map.mpr ⟨_, htk, rfl⟩
    · have hc := hrel p hp _ hdr
      have h1 := hstruct p (htksub.subset hp)
      show (l.map (fun x => x.author)).count a ≤ ((p.1, p.2.1).2.map (fun c => c.2)).sum
      rw [show (p.1, p.2.1).2 = p.2.1 from rfl, h1.1, ← h1.2.1]
      calc (l.map (fun x => x.author)).count a
          = ((authorRow l a).map (fun p => p.2)).sum := (authorRow_sum l a).symm
        _ ≤ p.2.2 := hc

end Veille
